import Mathlib

/-!
Shallow embedding of the MWM tiling window-manager core.

The repository ships only the C bridge header `src/include/mwm_bridge.h`
declaring the public interface (types and signatures); the engine body is
not part of the sources.  The behaviour of each operation is therefore
modelled from the specification, while the interface shapes (field types,
return types such as `void mwm_remove_window` or `bool mwm_move_to_front`,
`uint32_t gaps`/`padding`) are taken from the header.  Geometry uses `ℚ`
in place of C `float` so that the layout arithmetic is exact.
-/

/-- Rectangle matching `MWMRect` from the header (x, y, width, height). -/
structure MWMRect where
  x : ℚ
  y : ℚ
  width : ℚ
  height : ℚ
deriving DecidableEq, Repr

/-- Window record matching `MWMWindow` from the header. -/
structure MWMWindow where
  id : ℕ
  app_name : String
  title : String
  frame : MWMRect
  is_floating : Bool
deriving DecidableEq, Repr

/-- Layout command matching `MWMLayoutCommand` from the header. -/
structure MWMLayoutCommand where
  window_id : ℕ
  frame : MWMRect
deriving DecidableEq, Repr

/-- Modelled from the spec: the process-wide layout configuration
(`gaps`, `padding` are `uint32_t` at the boundary, hence `ℕ`;
`master_ratio` is a fraction). -/
structure LayoutConfig where
  gaps : ℕ
  padding : ℕ
  master_ratio : ℚ
deriving DecidableEq, Repr

/-- Modelled from the spec: the process-wide state — the ordered window
registry plus the layout configuration. -/
structure MWMState where
  windows : List MWMWindow
  config : LayoutConfig
deriving DecidableEq, Repr

/-- Modelled from the spec: the subsequence of registry windows whose
`is_floating` flag is false, in registry order (step 1 of ComputeLayout). -/
def tiledWindows (ws : List MWMWindow) : List MWMWindow :=
  ws.filter (fun w => !w.is_floating)

/-- Modelled from the spec: the screen rectangle shrunk by `padding` on
all four sides (step 3 of ComputeLayout). -/
def usableArea (screen : MWMRect) (padding : ℕ) : MWMRect :=
  { x := screen.x + padding
    y := screen.y + padding
    width := screen.width - 2 * padding
    height := screen.height - 2 * padding }

/-- Modelled from the spec: the vertical stack beside the master column;
each window gets the same width `w` and height `h`, with `g` spacing
between consecutive rectangles (step 5 of ComputeLayout). -/
def stackCommands (x : ℚ) (w : ℚ) (h : ℚ) (g : ℚ) : ℚ → List MWMWindow → List MWMLayoutCommand
  | _, [] => []
  | y, wnd :: rest =>
      { window_id := wnd.id, frame := { x := x, y := y, width := w, height := h } }
        :: stackCommands x w h g (y + h + g) rest

/-- Modelled from the spec: the master column width — `master_ratio` of
usable width minus half a gap (step 5). -/
def masterWidth (cfg : LayoutConfig) (u : MWMRect) : ℚ :=
  cfg.master_ratio * u.width - (cfg.gaps : ℚ) / 2

/-- Modelled from the spec: the stack column width — `(1 - master_ratio)`
of usable width minus half a gap (step 5). -/
def stackWidth (cfg : LayoutConfig) (u : MWMRect) : ℚ :=
  (1 - cfg.master_ratio) * u.width - (cfg.gaps : ℚ) / 2

/-- Modelled from the spec: the common height of the `n` stacked windows —
usable height less the `n − 1` inter-window gaps, divided evenly (step 5). -/
def stackHeight (cfg : LayoutConfig) (u : MWMRect) (n : ℕ) : ℚ :=
  (u.height - (cfg.gaps : ℚ) * ((n - 1 : ℕ) : ℚ)) / (n : ℚ)

/-- Modelled from the spec: the full ordered command list of ComputeLayout
before buffer truncation (steps 1–5).  The spec checks the empty selection
(step 2) before degenerate geometry (step 3); both guards yield zero
commands, so folding the empty case into the selection match is
observationally identical. -/
def layoutCommands (cfg : LayoutConfig) (screen : MWMRect) (ws : List MWMWindow) :
    List MWMLayoutCommand :=
  let u := usableArea screen cfg.padding
  if u.width ≤ 0 ∨ u.height ≤ 0 then []
  else
    match tiledWindows ws with
    | [] => []
    | [w] => [{ window_id := w.id, frame := u }]
    | m :: w2 :: rest =>
        let stack := w2 :: rest
        let g : ℚ := cfg.gaps
        let mw := masterWidth cfg u
        { window_id := m.id
          frame := { x := u.x, y := u.y, width := mw, height := u.height } }
          :: stackCommands (u.x + mw + g) (stackWidth cfg u) (stackHeight cfg u stack.length)
              g u.y stack

/-- Modelled from the spec: `mwm_calculate_layout` — writes at most
`maxCommands` commands into the caller buffer (modelled as the returned
list) and returns the number written (step 6). -/
def mwm_calculate_layout (s : MWMState) (screen : MWMRect) (maxCommands : ℕ) :
    List MWMLayoutCommand × ℕ :=
  let out := (layoutCommands s.config screen s.windows).take maxCommands
  (out, out.length)

/-- Modelled from the spec: `master_ratio` outside (0,1) is clamped to the
nearest valid bound rather than rejected. -/
def clampRatio (r : ℚ) : ℚ := min 1 (max 0 r)

/-- Modelled from the spec: `mwm_set_layout_config` replaces the
process-wide layout configuration; `gaps` and `padding` are `uint32_t`
at the boundary (header line 61), hence natural numbers here. -/
def mwm_set_layout_config (gaps padding : ℕ) (master_ratio : ℚ) (s : MWMState) : MWMState :=
  { s with config := { gaps := gaps, padding := padding, master_ratio := clampRatio master_ratio } }

/-- Modelled from the spec: delete the first window with the given id,
shifting all later windows down by one; no-op when absent. -/
def removeFirst (wid : ℕ) : List MWMWindow → List MWMWindow
  | [] => []
  | w :: ws => if w.id = wid then ws else w :: removeFirst wid ws

/-- Modelled from the spec: `mwm_remove_window` — per the header it
returns `void` (modelled as `Unit`); the state effect is the removal. -/
def mwm_remove_window (wid : ℕ) (s : MWMState) : MWMState × Unit :=
  ({ s with windows := removeFirst wid s.windows }, ())

/-- Modelled from the spec: `mwm_get_window_index` — position of the id,
or the negative sentinel −1 when absent (header: `intptr_t`). -/
def mwm_get_window_index (wid : ℕ) (s : MWMState) : ℤ :=
  match s.windows.findIdx? (fun w => w.id = wid) with
  | some i => (i : ℤ)
  | none => -1

/-- Modelled from the spec: `mwm_swap_windows` — exchanges the windows at
the two positions when both are in range, otherwise a no-op (per the
header the function returns `void`, so failure is not reported). -/
def mwm_swap_windows (i j : ℕ) (s : MWMState) : MWMState :=
  if h : i < s.windows.length ∧ j < s.windows.length then
    { s with windows :=
        (s.windows.set i (s.windows.get ⟨j, h.2⟩)).set j (s.windows.get ⟨i, h.1⟩) }
  else s

/-- Modelled from the spec: locate the window with the given id and split
it off, keeping the remaining windows in their relative order. -/
def extractById (wid : ℕ) : List MWMWindow → Option (MWMWindow × List MWMWindow)
  | [] => none
  | w :: ws =>
      if w.id = wid then some (w, ws)
      else
        match extractById wid ws with
        | some (m, rest) => some (m, w :: rest)
        | none => none

/-- Modelled from the spec: `mwm_move_to_front` — relocates the window
with the given id to position 0, returns whether it was found
(header: `bool`). -/
def mwm_move_to_front (wid : ℕ) (s : MWMState) : MWMState × Bool :=
  match extractById wid s.windows with
  | some (m, rest) => ({ s with windows := m :: rest }, true)
  | none => (s, false)

/-! ### Helper lemmas about the stack column -/

lemma stackCommands_length (x w h g : ℚ) :
    ∀ (y : ℚ) (ws : List MWMWindow), (stackCommands x w h g y ws).length = ws.length := by
  intro y ws
  induction ws generalizing y with
  | nil => rfl
  | cons wnd rest ih => simp [stackCommands, ih]

lemma stackCommands_getElem? (x w h g : ℚ) :
    ∀ (y : ℚ) (ws : List MWMWindow) (k : ℕ),
      (stackCommands x w h g y ws)[k]? =
        ws[k]?.map (fun wnd =>
          { window_id := wnd.id
            frame := { x := x, y := y + (k : ℚ) * (h + g), width := w, height := h } }) := by
  intro y ws
  induction ws generalizing y with
  | nil => intro k; simp [stackCommands]
  | cons wnd rest ih =>
      intro k
      cases k with
      | zero => simp [stackCommands]
      | succ k =>
          simp only [stackCommands, List.getElem?_cons_succ, ih (y + h + g) k]
          have : y + h + g + (k : ℚ) * (h + g) = y + ((k : ℚ) + 1) * (h + g) := by ring
          push_cast
          rw [this]

lemma stackCommands_map_window_id (x w h g : ℚ) :
    ∀ (y : ℚ) (ws : List MWMWindow),
      (stackCommands x w h g y ws).map (fun c => c.window_id) = ws.map (fun wnd => wnd.id) := by
  intro y ws
  induction ws generalizing y with
  | nil => rfl
  | cons wnd rest ih => simp [stackCommands, ih]

lemma stackCommands_width (x w h g : ℚ) :
    ∀ (y : ℚ) (ws : List MWMWindow) (c : MWMLayoutCommand),
      c ∈ stackCommands x w h g y ws → c.frame.width = w := by
  intro y ws
  induction ws generalizing y with
  | nil => intro c hc; simp [stackCommands] at hc
  | cons wnd rest ih =>
      intro c hc
      simp only [stackCommands, List.mem_cons] at hc
      rcases hc with rfl | hc
      · rfl
      · exact ih _ c hc

/-! ### Helper lemmas about the full command list -/

lemma layoutCommands_degenerate (cfg : LayoutConfig) (screen : MWMRect) (ws : List MWMWindow)
    (h : (usableArea screen cfg.padding).width ≤ 0 ∨ (usableArea screen cfg.padding).height ≤ 0) :
    layoutCommands cfg screen ws = [] := by
  unfold layoutCommands
  simp [h]

lemma layoutCommands_length (cfg : LayoutConfig) (screen : MWMRect) (ws : List MWMWindow)
    (hw : 0 < (usableArea screen cfg.padding).width)
    (hh : 0 < (usableArea screen cfg.padding).height) :
    (layoutCommands cfg screen ws).length = (tiledWindows ws).length := by
  unfold layoutCommands
  rw [if_neg (by push_neg; exact ⟨hw, hh⟩)]
  rcases htw : tiledWindows ws with _ | ⟨m, _ | ⟨w2, rest⟩⟩ <;>
    simp [stackCommands_length]

lemma layoutCommands_window_id_mem (cfg : LayoutConfig) (screen : MWMRect)
    (ws : List MWMWindow) (c : MWMLayoutCommand) (hc : c ∈ layoutCommands cfg screen ws) :
    c.window_id ∈ (tiledWindows ws).map (fun wnd => wnd.id) := by
  unfold layoutCommands at hc
  by_cases hdeg : (usableArea screen cfg.padding).width ≤ 0 ∨
      (usableArea screen cfg.padding).height ≤ 0
  · rw [if_pos hdeg] at hc; simp at hc
  · rw [if_neg hdeg] at hc
    rcases htw : tiledWindows ws with _ | ⟨m, _ | ⟨w2, rest⟩⟩ <;> rw [htw] at hc
    · simp at hc
    · simp at hc ⊢
      simp [hc]
    · simp only [List.mem_cons] at hc
      rcases hc with rfl | hc
      · simp
      · have hmap := stackCommands_map_window_id
          ((usableArea screen cfg.padding).x + masterWidth cfg (usableArea screen cfg.padding) +
            (cfg.gaps : ℚ))
          (stackWidth cfg (usableArea screen cfg.padding))
          (stackHeight cfg (usableArea screen cfg.padding) (w2 :: rest).length)
          (cfg.gaps : ℚ) (usableArea screen cfg.padding).y (w2 :: rest)
        have hmem : c.window_id ∈
            (stackCommands _ _ _ _ (usableArea screen cfg.padding).y (w2 :: rest)).map
              (fun c => c.window_id) := List.mem_map_of_mem _ hc
        rw [hmap] at hmem
        simp at hmem ⊢
        tauto

/-! ### Concrete fixtures used by witnesses and counterexamples -/

/-- A concrete non-floating window. -/
def winA : MWMWindow :=
  { id := 1, app_name := "Term", title := "shell", frame := ⟨0, 0, 400, 300⟩, is_floating := false }

/-- A second concrete non-floating window. -/
def winB : MWMWindow :=
  { id := 2, app_name := "Edit", title := "notes", frame := ⟨0, 0, 400, 300⟩, is_floating := false }

/-- A third concrete non-floating window. -/
def winC : MWMWindow :=
  { id := 3, app_name := "Web", title := "news", frame := ⟨0, 0, 400, 300⟩, is_floating := false }

/-- A concrete floating window. -/
def winF : MWMWindow :=
  { id := 4, app_name := "Pip", title := "video", frame := ⟨10, 10, 200, 100⟩, is_floating := true }

/-- The screen rectangle used by the spec's worked examples. -/
def screen1000 : MWMRect := ⟨0, 0, 1000, 800⟩

/-- Gap-free configuration with ratio 1/2. -/
def cfgPlain : LayoutConfig := { gaps := 0, padding := 0, master_ratio := 1/2 }

/-- The spec's example configuration: gaps 10, padding 0, ratio 0.6. -/
def cfgGaps : LayoutConfig := { gaps := 10, padding := 0, master_ratio := 3/5 }

/-! ### C3 — degenerate screens yield zero commands -/

/-- Claim C3: whenever the screen width or height is at most twice the
padding (usable area non-positive), `mwm_calculate_layout` produces zero
commands for every registry state and capacity, with no error path. -/
theorem calculate_layout_degenerate_screen (s : MWMState) (screen : MWMRect) (cap : ℕ)
    (h : screen.width ≤ 2 * (s.config.padding : ℚ) ∨
         screen.height ≤ 2 * (s.config.padding : ℚ)) :
    (mwm_calculate_layout s screen cap).1 = [] ∧ (mwm_calculate_layout s screen cap).2 = 0 := by
  have hdeg : (usableArea screen s.config.padding).width ≤ 0 ∨
      (usableArea screen s.config.padding).height ≤ 0 := by
    rcases h with h | h
    · left; simp only [usableArea]; linarith
    · right; simp only [usableArea]; linarith
  unfold mwm_calculate_layout
  rw [layoutCommands_degenerate _ _ _ hdeg]
  simp

/-- Claim C3 witness: screen 1000×800 with padding 600 yields zero
commands even with a registered window. -/
theorem calculate_layout_degenerate_screen_witness :
    ((1000 : ℚ) ≤ 2 * ((600 : ℕ) : ℚ) ∨ (800 : ℚ) ≤ 2 * ((600 : ℕ) : ℚ)) ∧
    (mwm_calculate_layout ⟨[winA], ⟨0, 600, 1/2⟩⟩ screen1000 4).1 = [] := by
  refine ⟨by norm_num, ?_⟩
  exact (calculate_layout_degenerate_screen ⟨[winA], ⟨0, 600, 1/2⟩⟩ screen1000 4
    (by norm_num [screen1000])).1

/-! ### C1 — a single tiled window -/

/-- Claim C1 counterexample: with exactly one non-floating window but a
padding that exhausts the screen, `mwm_calculate_layout` emits zero
commands, not one — the claim as stated fails for such configurations. -/
theorem calculate_layout_single_window_cex :
    (tiledWindows [winA]).length = 1 ∧
    (mwm_calculate_layout ⟨[winA], ⟨0, 600, 3/5⟩⟩ screen1000 4).1 = [] := by
  constructor
  · rfl
  · unfold mwm_calculate_layout
    rw [layoutCommands_degenerate]
    · simp
    · left; norm_num [usableArea, screen1000]

/-- Claim C1 (amended): with exactly one non-floating window, a usable
area of positive width and height, and capacity at least one, the layout
is exactly one command covering the whole usable area. -/
theorem calculate_layout_single_window (s : MWMState) (screen : MWMRect) (cap : ℕ)
    (w : MWMWindow) (hsel : tiledWindows s.windows = [w])
    (hw : 0 < (usableArea screen s.config.padding).width)
    (hh : 0 < (usableArea screen s.config.padding).height)
    (hcap : 1 ≤ cap) :
    (mwm_calculate_layout s screen cap).1 =
      [{ window_id := w.id, frame := usableArea screen s.config.padding }] ∧
    (mwm_calculate_layout s screen cap).2 = 1 := by
  unfold mwm_calculate_layout layoutCommands
  rw [if_neg (by push_neg; exact ⟨hw, hh⟩), hsel]
  simp [List.take_of_length_le, hcap]

/-- Claim C1 witness: one non-floating window, screen (0,0,1000,800),
padding 0 — exactly one command with rectangle (0,0,1000,800). -/
theorem calculate_layout_single_window_witness :
    (mwm_calculate_layout ⟨[winA], cfgPlain⟩ screen1000 1).1 =
      [{ window_id := 1, frame := ⟨0, 0, 1000, 800⟩ }] ∧
    (mwm_calculate_layout ⟨[winA], cfgPlain⟩ screen1000 1).2 = 1 := by
  have h := calculate_layout_single_window ⟨[winA], cfgPlain⟩ screen1000 1 winA
    (by rfl) (by norm_num [usableArea, screen1000, cfgPlain])
    (by norm_num [usableArea, screen1000, cfgPlain]) (by norm_num)
  refine ⟨?_, h.2⟩
  rw [h.1]
  norm_num [usableArea, screen1000, cfgPlain, winA]

/-! ### C2 — master and stack geometry -/

/-- Claim C2 counterexample: with two non-floating windows but a padding
that exhausts the screen, `mwm_calculate_layout` emits no commands at
all, so the master does not receive the claimed rectangle — the claim as
stated fails for such configurations. -/
theorem calculate_layout_master_stack_cex :
    (tiledWindows [winA, winB]).length = 2 ∧
    (mwm_calculate_layout ⟨[winA, winB], ⟨10, 600, 3/5⟩⟩ screen1000 4).1 = [] := by
  constructor
  · rfl
  · unfold mwm_calculate_layout
    rw [layoutCommands_degenerate]
    · simp
    · left; norm_num [usableArea, screen1000]

/-- Claim C2 (amended): with at least two non-floating windows, a usable
area of positive width and height, and sufficient capacity, the
selection-index-0 window receives the master rectangle (`master_ratio`
of usable width minus half a gap, full usable height) and the remaining
windows are stacked vertically in the remaining width with equal heights
and `gaps` spacing between consecutive rectangles. -/
theorem calculate_layout_master_stack (s : MWMState) (screen : MWMRect) (cap : ℕ)
    (m w2 : MWMWindow) (rest : List MWMWindow)
    (hsel : tiledWindows s.windows = m :: w2 :: rest)
    (hw : 0 < (usableArea screen s.config.padding).width)
    (hh : 0 < (usableArea screen s.config.padding).height)
    (hcap : 2 + rest.length ≤ cap) :
    (mwm_calculate_layout s screen cap).2 = 2 + rest.length ∧
    (mwm_calculate_layout s screen cap).1.head? = some
      { window_id := m.id
        frame := { x := (usableArea screen s.config.padding).x
                   y := (usableArea screen s.config.padding).y
                   width := masterWidth s.config (usableArea screen s.config.padding)
                   height := (usableArea screen s.config.padding).height } } ∧
    ∀ k : ℕ, k < (w2 :: rest).length →
      (mwm_calculate_layout s screen cap).1[k + 1]? = ((w2 :: rest)[k]?).map (fun wnd =>
        { window_id := wnd.id
          frame := { x := (usableArea screen s.config.padding).x +
                          masterWidth s.config (usableArea screen s.config.padding) +
                          (s.config.gaps : ℚ)
                     y := (usableArea screen s.config.padding).y + (k : ℚ) *
                          (stackHeight s.config (usableArea screen s.config.padding)
                            (w2 :: rest).length + (s.config.gaps : ℚ))
                     width := stackWidth s.config (usableArea screen s.config.padding)
                     height := stackHeight s.config (usableArea screen s.config.padding)
                        (w2 :: rest).length } }) := by
  have hfull : layoutCommands s.config screen s.windows =
      { window_id := m.id
        frame := { x := (usableArea screen s.config.padding).x
                   y := (usableArea screen s.config.padding).y
                   width := masterWidth s.config (usableArea screen s.config.padding)
                   height := (usableArea screen s.config.padding).height } }
        :: stackCommands
            ((usableArea screen s.config.padding).x +
              masterWidth s.config (usableArea screen s.config.padding) + (s.config.gaps : ℚ))
            (stackWidth s.config (usableArea screen s.config.padding))
            (stackHeight s.config (usableArea screen s.config.padding) (w2 :: rest).length)
            (s.config.gaps : ℚ) (usableArea screen s.config.padding).y (w2 :: rest) := by
    unfold layoutCommands
    rw [if_neg (by push_neg; exact ⟨hw, hh⟩), hsel]
  have hlen : (layoutCommands s.config screen s.windows).length = 2 + rest.length := by
    rw [hfull]
    simp [stackCommands_length]
    omega
  have htake : (layoutCommands s.config screen s.windows).take cap =
      layoutCommands s.config screen s.windows :=
    List.take_of_length_le (by rw [hlen]; exact hcap)
  unfold mwm_calculate_layout
  rw [htake, hfull]
  refine ⟨?_, rfl, ?_⟩
  · simp [stackCommands_length]
    omega
  · intro k hk
    simp only [List.getElem?_cons_succ]
    rw [stackCommands_getElem?]

/-- Claim C2 witness: two non-floating windows, screen (0,0,1000,800),
gaps 10, padding 0, ratio 0.6 — master rectangle (0,0,595,800), stack
rectangle (605,0,395,800). -/
theorem calculate_layout_master_stack_witness :
    (mwm_calculate_layout ⟨[winA, winB], cfgGaps⟩ screen1000 2).2 = 2 ∧
    (mwm_calculate_layout ⟨[winA, winB], cfgGaps⟩ screen1000 2).1.head? =
      some { window_id := 1, frame := ⟨0, 0, 595, 800⟩ } ∧
    (mwm_calculate_layout ⟨[winA, winB], cfgGaps⟩ screen1000 2).1[1]? =
      some { window_id := 2, frame := ⟨605, 0, 395, 800⟩ } := by
  have h := calculate_layout_master_stack ⟨[winA, winB], cfgGaps⟩ screen1000 2 winA winB []
    (by rfl) (by norm_num [usableArea, screen1000, cfgGaps])
    (by norm_num [usableArea, screen1000, cfgGaps]) (by norm_num)
  refine ⟨h.1, ?_, ?_⟩
  · rw [h.2.1]
    norm_num [masterWidth, usableArea, screen1000, cfgGaps, winA]
  · have h2 := h.2.2 0 (by norm_num)
    rw [h2]
    norm_num [masterWidth, stackWidth, stackHeight, usableArea, screen1000, cfgGaps, winB]

/-! ### C4 — floating windows are never laid out -/

/-- Claim C4: under the registry invariant that window ids are unique, no
command produced by `mwm_calculate_layout` carries the id of a window
whose `is_floating` flag is true, wherever it sits in the registry. -/
theorem calculate_layout_excludes_floating (s : MWMState) (screen : MWMRect) (cap : ℕ)
    (w : MWMWindow) (hw : w ∈ s.windows) (hfl : w.is_floating = true)
    (hids : (s.windows.map (fun x => x.id)).Nodup) :
    ∀ c ∈ (mwm_calculate_layout s screen cap).1, c.window_id ≠ w.id := by
  intro c hc heq
  have hc' : c ∈ layoutCommands s.config screen s.windows := List.mem_of_mem_take hc
  have hmem := layoutCommands_window_id_mem _ _ _ _ hc'
  simp only [List.mem_map] at hmem
  obtain ⟨w', hw', hid⟩ := hmem
  have hw'mem : w' ∈ s.windows := List.mem_of_mem_filter hw'
  have hw'fl : w'.is_floating = false := by
    have := List.of_mem_filter hw'
    simpa using this
  have : w' = w := List.inj_on_of_nodup_map hids hw'mem hw (by rw [hid, heq])
  rw [this, hfl] at hw'fl
  exact absurd hw'fl (by simp)

/-- Claim C4 witness: with a floating window first in the registry,
no emitted command carries its id. -/
theorem calculate_layout_excludes_floating_witness :
    (([winF, winA, winB].map (fun x => x.id)).Nodup) ∧
    ((mwm_calculate_layout ⟨[winF, winA, winB], cfgGaps⟩ screen1000 5).1.all
      (fun c => c.window_id ≠ 4)) = true := by
  refine ⟨by decide, ?_⟩
  rw [List.all_eq_true]
  intro c hc
  have h := calculate_layout_excludes_floating ⟨[winF, winA, winB], cfgGaps⟩ screen1000 5 winF
    (by simp) (by rfl) (by decide) c hc
  simpa [winF] using h

/-! ### C5 — buffer capacity and truncation -/

/-- Claim C5 counterexample: with two tiled windows, capacity 1, and a
degenerate screen (padding 500 on a 1000×800 screen), the engine emits
zero commands — not the claimed min(capacity, tiled count) = 1. -/
theorem calculate_layout_truncation_cex :
    (tiledWindows [winA, winB]).length = 2 ∧
    (mwm_calculate_layout ⟨[winA, winB], ⟨10, 500, 3/5⟩⟩ screen1000 1).2 = 0 := by
  constructor
  · rfl
  · unfold mwm_calculate_layout
    rw [layoutCommands_degenerate]
    · simp
    · left; norm_num [usableArea, screen1000]

/-- Claim C5 (amended): the engine writes at most `cap` commands, always
the first commands of the full command list in selection order, returns
the number written, and — whenever the usable area is positive — writes
exactly min(capacity, number of non-floating windows) commands. -/
theorem calculate_layout_truncation (s : MWMState) (screen : MWMRect) (cap : ℕ) :
    (mwm_calculate_layout s screen cap).1.length ≤ cap ∧
    (mwm_calculate_layout s screen cap).1 =
      (layoutCommands s.config screen s.windows).take cap ∧
    (mwm_calculate_layout s screen cap).2 = (mwm_calculate_layout s screen cap).1.length ∧
    (0 < (usableArea screen s.config.padding).width →
      0 < (usableArea screen s.config.padding).height →
      (mwm_calculate_layout s screen cap).1.length =
        min cap (tiledWindows s.windows).length) := by
  refine ⟨?_, rfl, rfl, ?_⟩
  · simp [mwm_calculate_layout, List.length_take]
  · intro hw hh
    simp [mwm_calculate_layout, List.length_take, layoutCommands_length _ _ _ hw hh]

/-- Claim C5 witness: three tiled windows and capacity 2 — exactly two
commands are written and reported. -/
theorem calculate_layout_truncation_witness :
    (mwm_calculate_layout ⟨[winA, winB, winC], cfgGaps⟩ screen1000 2).1.length ≤ 2 ∧
    (mwm_calculate_layout ⟨[winA, winB, winC], cfgGaps⟩ screen1000 2).1.length = 2 ∧
    (mwm_calculate_layout ⟨[winA, winB, winC], cfgGaps⟩ screen1000 2).2 =
      (mwm_calculate_layout ⟨[winA, winB, winC], cfgGaps⟩ screen1000 2).1.length := by
  have h := calculate_layout_truncation ⟨[winA, winB, winC], cfgGaps⟩ screen1000 2
  refine ⟨h.1, ?_, h.2.2.1⟩
  have hmin := h.2.2.2 (by norm_num [usableArea, screen1000, cfgGaps])
    (by norm_num [usableArea, screen1000, cfgGaps])
  rw [hmin]
  rfl

/-! ### C7 — RemoveWindow -/

lemma removeFirst_of_findIdx_some (wid : ℕ) :
    ∀ (l : List MWMWindow) (i : ℕ), l.findIdx? (fun w => w.id = wid) = some i →
      removeFirst wid l = l.take i ++ l.drop (i + 1) := by
  intro l
  induction l with
  | nil => intro i h; simp at h
  | cons x xs ih =>
      intro i h
      rw [List.findIdx?_cons] at h
      by_cases hx : x.id = wid
      · rw [if_pos (by simp [hx])] at h
        have h0 : i = 0 := by simpa using h.symm
        subst h0
        simp [removeFirst, hx]
      · rw [if_neg (by simp [hx])] at h
        rw [List.findIdx?_succ] at h
        cases hf : xs.findIdx? (fun w => w.id = wid) with
        | none => rw [hf] at h; simp at h
        | some j =>
            rw [hf] at h
            have hj : i = j + 1 := by simpa using h.symm
            subst hj
            simp [removeFirst, hx, ih j hf]

lemma removeFirst_of_findIdx_none (wid : ℕ) :
    ∀ (l : List MWMWindow), l.findIdx? (fun w => w.id = wid) = none →
      removeFirst wid l = l := by
  intro l h
  rw [List.findIdx?_eq_none_iff] at h
  induction l with
  | nil => rfl
  | cons x xs ih =>
      have hx : ¬ x.id = wid := by
        have := h x (by simp)
        simpa using this
      rw [removeFirst, if_neg hx, ih (fun y hy => h y (by simp [hy]))]

/-- Claim C7 counterexample: `mwm_remove_window` returns `void` at the C
interface (header line 41), so its return value is identical whether a
removal occurred (id 1 present, one window deleted) or not (empty
registry) — it cannot "return whether a removal occurred". -/
theorem remove_window_cex :
    (mwm_remove_window 1 ⟨[winA], cfgPlain⟩).2 = (mwm_remove_window 1 ⟨[], cfgPlain⟩).2 ∧
    (mwm_remove_window 1 ⟨[winA], cfgPlain⟩).1.windows.length + 1 =
      ([winA] : List MWMWindow).length ∧
    (mwm_remove_window 1 ⟨[], cfgPlain⟩).1.windows = [] := by
  refine ⟨rfl, ?_, rfl⟩
  simp [mwm_remove_window, removeFirst, winA]

/-- Claim C7 (amended): `mwm_remove_window` deletes the window with the
given id when present — all later windows shift down one position — and
is a no-op when the id is absent; the configuration is untouched.  (At
the C interface the function returns `void`, so whether a removal
occurred is not reported.) -/
theorem remove_window_spec (wid : ℕ) (s : MWMState) :
    (∀ i : ℕ, s.windows.findIdx? (fun w => w.id = wid) = some i →
      (mwm_remove_window wid s).1.windows = s.windows.take i ++ s.windows.drop (i + 1)) ∧
    (s.windows.findIdx? (fun w => w.id = wid) = none →
      (mwm_remove_window wid s).1 = s) ∧
    (mwm_remove_window wid s).1.config = s.config := by
  refine ⟨?_, ?_, rfl⟩
  · intro i h
    simp [mwm_remove_window, removeFirst_of_findIdx_some wid s.windows i h]
  · intro h
    simp [mwm_remove_window, removeFirst_of_findIdx_none wid s.windows h]

/-- Claim C7 witness: removing id 2 from [winA, winB, winC] (found at
index 1) leaves [winA, winC]; removing id 9 from the same registry is a
no-op. -/
theorem remove_window_witness :
    ([winA, winB, winC].findIdx? (fun w => w.id = 2) = some 1) ∧
    (mwm_remove_window 2 ⟨[winA, winB, winC], cfgPlain⟩).1.windows = [winA, winC] ∧
    ([winA, winB, winC].findIdx? (fun w => w.id = 9) = none) ∧
    (mwm_remove_window 9 ⟨[winA, winB, winC], cfgPlain⟩).1 =
      ⟨[winA, winB, winC], cfgPlain⟩ := by
  have h1 := (remove_window_spec 2 ⟨[winA, winB, winC], cfgPlain⟩).1 1 (by rfl)
  have h2 := (remove_window_spec 9 ⟨[winA, winB, winC], cfgPlain⟩).2.1 (by rfl)
  exact ⟨by rfl, by rw [h1]; rfl, by rfl, h2⟩

/-! ### C8 — SwapWindows is an involution -/

lemma list_set_getElem_self (l : List MWMWindow) (i : ℕ) (h : i < l.length) :
    l.set i (l.get ⟨i, h⟩) = l := by
  apply List.ext_getElem
  · simp
  · intro k hk1 hk2
    simp only [List.get_eq_getElem, List.getElem_set]
    split_ifs with he
    · subst he; rfl
    · rfl

lemma list_swap_cancel (l : List MWMWindow) (i j : ℕ)
    (hi : i < l.length) (hj : j < l.length)
    (h1 : j < ((l.set i (l.get ⟨j, hj⟩)).set j (l.get ⟨i, hi⟩)).length)
    (h2 : i < ((l.set i (l.get ⟨j, hj⟩)).set j (l.get ⟨i, hi⟩)).length) :
    (((l.set i (l.get ⟨j, hj⟩)).set j (l.get ⟨i, hi⟩)).set i
        (((l.set i (l.get ⟨j, hj⟩)).set j (l.get ⟨i, hi⟩)).get ⟨j, h1⟩)).set j
      (((l.set i (l.get ⟨j, hj⟩)).set j (l.get ⟨i, hi⟩)).get ⟨i, h2⟩) = l := by
  apply List.ext_getElem
  · simp
  · intro k hk1 hk2
    simp only [List.get_eq_getElem, List.getElem_set]
    by_cases hji : j = i <;> by_cases hjk : j = k <;> by_cases hik : i = k <;>
      simp_all

/-- Claim C8: for valid indices i and j, swapping twice restores the
original state, and a swap of an index with itself is a no-op (which, the
function returning `void`, is as much "success" as any call reports). -/
lemma swap_windows_eq (s : MWMState) (i j : ℕ)
    (hi : i < s.windows.length) (hj : j < s.windows.length) :
    mwm_swap_windows i j s =
      { s with windows :=
          (s.windows.set i (s.windows.get ⟨j, hj⟩)).set j (s.windows.get ⟨i, hi⟩) } := by
  unfold mwm_swap_windows
  rw [dif_pos ⟨hi, hj⟩]

theorem swap_windows_involutive (s : MWMState) (i j : ℕ)
    (hi : i < s.windows.length) (hj : j < s.windows.length) :
    mwm_swap_windows i j (mwm_swap_windows i j s) = s ∧
    mwm_swap_windows i i s = s := by
  obtain ⟨ws, cfg⟩ := s
  constructor
  · have e1 : mwm_swap_windows i j ⟨ws, cfg⟩ =
        ⟨(ws.set i (ws.get ⟨j, hj⟩)).set j (ws.get ⟨i, hi⟩), cfg⟩ :=
      swap_windows_eq ⟨ws, cfg⟩ i j hi hj
    rw [e1]
    have hi1 : i < ((ws.set i (ws.get ⟨j, hj⟩)).set j (ws.get ⟨i, hi⟩)).length := by
      simpa using hi
    have hj1 : j < ((ws.set i (ws.get ⟨j, hj⟩)).set j (ws.get ⟨i, hi⟩)).length := by
      simpa using hj
    have e2 := swap_windows_eq ⟨(ws.set i (ws.get ⟨j, hj⟩)).set j (ws.get ⟨i, hi⟩), cfg⟩
      i j hi1 hj1
    rw [e2]
    have hlist := list_swap_cancel ws i j hi hj hj1 hi1
    exact congrArg (fun l => ({ windows := l, config := cfg } : MWMState)) hlist
  · have e1 : mwm_swap_windows i i ⟨ws, cfg⟩ =
        ⟨(ws.set i (ws.get ⟨i, hi⟩)).set i (ws.get ⟨i, hi⟩), cfg⟩ :=
      swap_windows_eq ⟨ws, cfg⟩ i i hi hi
    rw [e1, List.set_set]
    rw [list_set_getElem_self ws i hi]

/-- Claim C8 witness: on a three-window registry, swapping positions 0
and 2 twice restores the registry, and swapping 0 with itself is a
no-op. -/
theorem swap_windows_involutive_witness :
    (0 : ℕ) < ([winA, winB, winC] : List MWMWindow).length ∧
    (2 : ℕ) < ([winA, winB, winC] : List MWMWindow).length ∧
    mwm_swap_windows 0 2 (mwm_swap_windows 0 2 ⟨[winA, winB, winC], cfgPlain⟩) =
      ⟨[winA, winB, winC], cfgPlain⟩ ∧
    mwm_swap_windows 0 0 ⟨[winA, winB, winC], cfgPlain⟩ = ⟨[winA, winB, winC], cfgPlain⟩ := by
  have h := swap_windows_involutive ⟨[winA, winB, winC], cfgPlain⟩ 0 2
    (by norm_num) (by norm_num)
  exact ⟨by norm_num, by norm_num, h.1, h.2⟩

/-! ### C9 — MoveWindowToFront -/

lemma extractById_of_findIdx_some (wid : ℕ) :
    ∀ (l : List MWMWindow) (i : ℕ) (hi : i < l.length),
      l.findIdx? (fun w => w.id = wid) = some i →
      (l.get ⟨i, hi⟩).id = wid ∧
      extractById wid l = some (l.get ⟨i, hi⟩, l.take i ++ l.drop (i + 1)) := by
  intro l
  induction l with
  | nil => intro i hi h; simp at hi
  | cons x xs ih =>
      intro i hi h
      rw [List.findIdx?_cons] at h
      by_cases hx : x.id = wid
      · rw [if_pos (by simp [hx])] at h
        have h0 : i = 0 := by simpa using h.symm
        subst h0
        simp [extractById, hx]
      · rw [if_neg (by simp [hx])] at h
        rw [List.findIdx?_succ] at h
        cases hf : xs.findIdx? (fun w => w.id = wid) with
        | none => rw [hf] at h; simp at h
        | some j =>
            rw [hf] at h
            have hj : i = j + 1 := by simpa using h.symm
            subst hj
            have hj' : j < xs.length := by simpa using hi
            obtain ⟨hid, hext⟩ := ih j hj' hf
            refine ⟨by simpa using hid, ?_⟩
            simp [extractById, hx, hext]

lemma extractById_of_findIdx_none (wid : ℕ) :
    ∀ (l : List MWMWindow), l.findIdx? (fun w => w.id = wid) = none →
      extractById wid l = none := by
  intro l h
  rw [List.findIdx?_eq_none_iff] at h
  induction l with
  | nil => rfl
  | cons x xs ih =>
      have hx : ¬ x.id = wid := by
        have := h x (by simp)
        simpa using this
      rw [extractById, if_neg hx, ih (fun y hy => h y (by simp [hy]))]

/-- Claim C9: when a window with the given id sits at position i,
`mwm_move_to_front` returns true and relocates it to position 0 with all
other windows keeping their relative order (the new tail is the old list
with position i deleted), after which `mwm_get_window_index` yields 0;
when the id is absent the call is a no-op returning false. -/
theorem move_to_front_spec (wid : ℕ) (s : MWMState) :
    (∀ (i : ℕ) (hi : i < s.windows.length),
        s.windows.findIdx? (fun w => w.id = wid) = some i →
        (mwm_move_to_front wid s).2 = true ∧
        (mwm_move_to_front wid s).1.windows =
          s.windows.get ⟨i, hi⟩ :: (s.windows.take i ++ s.windows.drop (i + 1)) ∧
        mwm_get_window_index wid (mwm_move_to_front wid s).1 = 0) ∧
    (s.windows.findIdx? (fun w => w.id = wid) = none →
        mwm_move_to_front wid s = (s, false)) := by
  constructor
  · intro i hi h
    obtain ⟨hid, hext⟩ := extractById_of_findIdx_some wid s.windows i hi h
    unfold mwm_move_to_front
    rw [hext]
    refine ⟨rfl, rfl, ?_⟩
    unfold mwm_get_window_index
    simp only []
    rw [List.findIdx?_cons, if_pos (by simp only [List.get_eq_getElem] at hid; simp [hid])]
    rfl
  · intro h
    unfold mwm_move_to_front
    rw [extractById_of_findIdx_none wid s.windows h]

/-- Claim C9 witness: moving id 3 (at position 2 of a three-window
registry) to the front yields order [3,1,2], reports found, and a
following index query yields 0; moving an absent id 9 is a no-op
returning false. -/
theorem move_to_front_witness :
    ([winA, winB, winC].findIdx? (fun w => w.id = 3) = some 2) ∧
    (mwm_move_to_front 3 ⟨[winA, winB, winC], cfgPlain⟩).2 = true ∧
    (mwm_move_to_front 3 ⟨[winA, winB, winC], cfgPlain⟩).1.windows = [winC, winA, winB] ∧
    mwm_get_window_index 3 (mwm_move_to_front 3 ⟨[winA, winB, winC], cfgPlain⟩).1 = 0 ∧
    mwm_move_to_front 9 ⟨[winA, winB, winC], cfgPlain⟩ = (⟨[winA, winB, winC], cfgPlain⟩, false) := by
  have h := (move_to_front_spec 3 ⟨[winA, winB, winC], cfgPlain⟩).1 2 (by norm_num) (by rfl)
  have h9 := (move_to_front_spec 9 ⟨[winA, winB, winC], cfgPlain⟩).2 (by rfl)
  exact ⟨by rfl, h.1, by rw [h.2.1]; rfl, h.2.2, h9⟩

/-! ### C6 — master_ratio clamping -/

lemma clampRatio_nonneg (r : ℚ) : 0 ≤ clampRatio r :=
  le_min (by norm_num) (le_max_left 0 r)

lemma clampRatio_le_one (r : ℚ) : clampRatio r ≤ 1 :=
  min_le_left 1 (max 0 r)

lemma clampRatio_of_nonpos (r : ℚ) (hr : r ≤ 0) : clampRatio r = 0 := by
  unfold clampRatio
  rw [max_eq_left hr, min_eq_right (by norm_num)]

lemma clampRatio_of_one_le (r : ℚ) (hr : 1 ≤ r) : clampRatio r = 1 := by
  unfold clampRatio
  rw [max_eq_right (le_trans zero_le_one hr), min_eq_left hr]

lemma clampRatio_of_mem (r : ℚ) (h0 : 0 ≤ r) (h1 : r ≤ 1) : clampRatio r = r := by
  unfold clampRatio
  rw [max_eq_right h0, min_eq_right h1]

lemma layoutCommands_width_nonneg (cfg : LayoutConfig) (screen : MWMRect) (ws : List MWMWindow)
    (hg : cfg.gaps = 0) (h0 : 0 ≤ cfg.master_ratio) (h1 : cfg.master_ratio ≤ 1) :
    ∀ c ∈ layoutCommands cfg screen ws, 0 ≤ c.frame.width := by
  intro c hc
  unfold layoutCommands at hc
  by_cases hdeg : (usableArea screen cfg.padding).width ≤ 0 ∨
      (usableArea screen cfg.padding).height ≤ 0
  · rw [if_pos hdeg] at hc; simp at hc
  · rw [if_neg hdeg] at hc
    push_neg at hdeg
    obtain ⟨hw, hh⟩ := hdeg
    rcases htw : tiledWindows ws with _ | ⟨m, _ | ⟨w2, rest⟩⟩ <;> rw [htw] at hc
    · simp at hc
    · simp only [List.mem_singleton] at hc
      rw [hc]
      exact le_of_lt hw
    · rcases List.mem_cons.mp hc with rfl | hc
      · show (0 : ℚ) ≤ masterWidth cfg (usableArea screen cfg.padding)
        unfold masterWidth
        rw [hg]
        push_cast
        have := mul_nonneg h0 (le_of_lt hw)
        linarith
      · have hcw := stackCommands_width _ _ _ _ _ _ c hc
        rw [hcw]
        unfold stackWidth
        rw [hg]
        push_cast
        have := mul_nonneg (by linarith : (0:ℚ) ≤ 1 - cfg.master_ratio) (le_of_lt hw)
        linarith

/-- Claim C6 counterexample: master_ratio −1/2 is clamped to the bound 0,
but the very next layout call on two tiled windows with gaps 10 produces
a master rectangle of width −5 < 0: clamping does not prevent negative
widths when gaps are positive. -/
theorem set_layout_config_clamp_cex :
    (mwm_set_layout_config 10 0 (-(1 : ℚ)/2) ⟨[winA, winB], cfgPlain⟩).config.master_ratio = 0 ∧
    ((mwm_calculate_layout (mwm_set_layout_config 10 0 (-(1 : ℚ)/2) ⟨[winA, winB], cfgPlain⟩)
        screen1000 4).1.any (fun c => c.frame.width < 0)) = true := by
  have hstate : mwm_set_layout_config 10 0 (-(1 : ℚ)/2) ⟨[winA, winB], cfgPlain⟩ =
      ⟨[winA, winB], ⟨10, 0, 0⟩⟩ := by
    unfold mwm_set_layout_config
    rw [clampRatio_of_nonpos _ (by norm_num)]
  rw [hstate]
  refine ⟨rfl, ?_⟩
  simp [mwm_calculate_layout, layoutCommands, tiledWindows, usableArea, masterWidth,
    stackWidth, stackHeight, stackCommands, winA, winB, screen1000]
  norm_num

/-- Claim C6 (amended): `mwm_set_layout_config` clamps `master_ratio`
into [0, 1] — out-of-range values go to the nearest bound, in-range
values are kept — and with `gaps = 0` every subsequent layout call
produces only rectangles of non-negative width (the claim's unqualified
"no negative width" fails for positive gaps, see the counterexample; the
engine's divisions are by the constant 2 and by the positive stack
count, so none divides by zero). -/
theorem set_layout_config_clamp (gaps padding : ℕ) (r : ℚ) (s : MWMState) :
    0 ≤ (mwm_set_layout_config gaps padding r s).config.master_ratio ∧
    (mwm_set_layout_config gaps padding r s).config.master_ratio ≤ 1 ∧
    (r ≤ 0 → (mwm_set_layout_config gaps padding r s).config.master_ratio = 0) ∧
    (1 ≤ r → (mwm_set_layout_config gaps padding r s).config.master_ratio = 1) ∧
    (0 ≤ r → r ≤ 1 → (mwm_set_layout_config gaps padding r s).config.master_ratio = r) ∧
    (gaps = 0 → ∀ (screen : MWMRect) (cap : ℕ),
      ∀ c ∈ (mwm_calculate_layout (mwm_set_layout_config gaps padding r s) screen cap).1,
        0 ≤ c.frame.width) := by
  refine ⟨clampRatio_nonneg r, clampRatio_le_one r, clampRatio_of_nonpos r,
    clampRatio_of_one_le r, clampRatio_of_mem r, ?_⟩
  intro hgaps screen cap c hc
  have hc' : c ∈ layoutCommands (mwm_set_layout_config gaps padding r s).config screen
      (mwm_set_layout_config gaps padding r s).windows := List.mem_of_mem_take hc
  exact layoutCommands_width_nonneg (mwm_set_layout_config gaps padding r s).config screen
    (mwm_set_layout_config gaps padding r s).windows hgaps (clampRatio_nonneg r)
    (clampRatio_le_one r) c hc'

/-- Claim C6 witness: ratio 2 is clamped to 1; with gaps 0 the resulting
layout of two windows contains no negative-width rectangle. -/
theorem set_layout_config_clamp_witness :
    (mwm_set_layout_config 0 0 (2 : ℚ) ⟨[winA, winB], cfgPlain⟩).config.master_ratio = 1 ∧
    ((mwm_calculate_layout (mwm_set_layout_config 0 0 (2 : ℚ) ⟨[winA, winB], cfgPlain⟩)
        screen1000 4).1.all (fun c => 0 ≤ c.frame.width)) = true := by
  have h := set_layout_config_clamp 0 0 (2 : ℚ) ⟨[winA, winB], cfgPlain⟩
  refine ⟨h.2.2.2.1 (by norm_num), ?_⟩
  rw [List.all_eq_true]
  intro c hc
  have := h.2.2.2.2.2 rfl screen1000 4 c hc
  simpa using this

/-! ### C10 — gaps and padding are unsigned at the interface -/

/-- Claim C10: `mwm_set_layout_config` takes `gaps` and `padding` as
unsigned 32-bit integers (header line 61); any representable argument is
stored unchanged and is non-negative as the rational the layout
arithmetic uses — negative spacing values are unrepresentable. -/
theorem set_layout_config_unsigned (gaps padding : ℕ) (r : ℚ) (s : MWMState)
    (_hg : gaps < 2 ^ 32) (_hp : padding < 2 ^ 32) :
    (mwm_set_layout_config gaps padding r s).config.gaps = gaps ∧
    (mwm_set_layout_config gaps padding r s).config.padding = padding ∧
    0 ≤ ((mwm_set_layout_config gaps padding r s).config.gaps : ℚ) ∧
    0 ≤ ((mwm_set_layout_config gaps padding r s).config.padding : ℚ) := by
  exact ⟨rfl, rfl, by positivity, by positivity⟩

/-- Claim C10 witness: gaps 7 and padding 3 are stored unchanged and
non-negative. -/
theorem set_layout_config_unsigned_witness :
    (mwm_set_layout_config 7 3 (1/2 : ℚ) ⟨[], cfgPlain⟩).config.gaps = 7 ∧
    0 ≤ ((mwm_set_layout_config 7 3 (1/2 : ℚ) ⟨[], cfgPlain⟩).config.padding : ℚ) := by
  have h := set_layout_config_unsigned 7 3 (1/2 : ℚ) ⟨[], cfgPlain⟩ (by norm_num) (by norm_num)
  exact ⟨h.1, h.2.2.2⟩
